import Mathlib

/-!
Verification development for the SML/NJ LLVM code-generator library
(`smlnj-llvm`): a shallow embedding of the code-object relocation
patching (`amd64-code-object.inc`, `arm64-code-object.inc`), the
code-generation context registers (`context.hpp`), and the machine-code
emission pipeline (`mc-gen.cpp`), together with theorems about their
behaviour.

Machine integers are modelled as `Nat`/`Int` with explicit wrap-arounds
(`% 2^32` etc.) where the C++ code relies on fixed-width arithmetic.
Byte memory (`uint8_t *code`) is modelled as a function `Nat → Nat`
whose values are bytes.  A call to the fatal-error routine `Die` is
modelled as an `Except.error` carrying exactly the arguments that the
source passes to `Die` (the relocation-type string and the patch
address); since `Die` never returns, any code after a `Die` call is
unreachable and does not appear in the embedding.
-/

/-- Byte-addressed memory, as written by `uint8_t *code`.  Values are bytes. -/
def Mem : Type := Nat → Nat

/-- Single byte store `code[a] = b`. -/
def Mem.upd (m : Mem) (a b : Nat) : Mem := fun x => if x = a then b else m x

/-- The object-file formats the library is compiled for: `OBJFF_MACHO`
or `OBJFF_ELF` (set per target OS in the build configuration). -/
inductive ObjFF where
  | macho
  | elf
deriving DecidableEq

/-- `llvm::MachO::X86_64_RELOC_SIGNED` -/
def X86_64_RELOC_SIGNED : Nat := 1

/-- `llvm::MachO::X86_64_RELOC_BRANCH` -/
def X86_64_RELOC_BRANCH : Nat := 2

/-- `llvm::ELF::R_X86_64_PC32` -/
def R_X86_64_PC32 : Nat := 2

/-- `llvm::MachO::ARM64_RELOC_BRANCH26` -/
def ARM64_RELOC_BRANCH26 : Nat := 2

/-- `llvm::MachO::ARM64_RELOC_PAGE21` -/
def ARM64_RELOC_PAGE21 : Nat := 3

/-- `llvm::MachO::ARM64_RELOC_PAGEOFF12` -/
def ARM64_RELOC_PAGEOFF12 : Nat := 4

/-- A normalized relocation record (`struct Relocation` of
`code-object.hpp`): the relocation type, the patch address relative to
the start of the code object, and the computed signed value.  The
source skips a record when the symbol iterator equals `symbols().end()`;
that test is abstracted as the flag `symbolDefined`. -/
structure Relocation where
  symbolDefined : Bool
  type : Nat
  addr : Nat
  value : Int
deriving DecidableEq

/-- The two arguments the source passes to `Die` for an unsupported
relocation-record type: `_relocTypeToString(reloc.type)` and
`(void*)reloc.addr`. -/
structure DieInfo where
  relocType : String
  addr : Nat
deriving DecidableEq

/-- The C++ cast `(int32_t) reloc.value`: wrap an `int64_t` value to the
range of `int32_t`. -/
def toInt32 (v : Int) : Int := (v + 2 ^ 31) % 2 ^ 32 - 2 ^ 31

/-- The conversion of an `int32_t` argument to a `uint32_t` parameter
(as in `instr.patchHi21 (value)`). -/
def toUInt32arg (v : Int) : Nat := (v % 2 ^ 32).toNat

/-- `AMD64CodeObject::_relocTypeToString` -/
def amd64RelocTypeToString (ff : ObjFF) (ty : Nat) : String :=
  match ff with
  | .elf =>
    match ty with
    | 0 => "R_NONE (0)"
    | 1 => "R_64 (1)"
    | 2 => "R_PC32 (2)"
    | 3 => "R_GOT32 (3)"
    | 4 => "R_PLT32 (4)"
    | 5 => "R_COPY (5)"
    | 6 => "R_GLOB_DAT (6)"
    | 7 => "R_JUMP_SLOT (7)"
    | 8 => "R_RELATIVE (8)"
    | 9 => "R_GOTPCREL (9)"
    | 10 => "R_32 (10)"
    | 11 => "R_32S (11)"
    | 12 => "R_16 (12)"
    | 13 => "R_PC16 (13)"
    | 14 => "R_8 (14)"
    | 15 => "R_PC8 (15)"
    | 16 => "R_DTPMOD64 (16)"
    | 17 => "R_DTPOFF64 (17)"
    | 18 => "R_TPOFF64 (18)"
    | 19 => "R_TLSGD (19)"
    | 20 => "R_TLSLD (20)"
    | 21 => "R_DTPOFF32 (21)"
    | 22 => "R_GOTTPOFF (22)"
    | 23 => "R_TPOFF32 (23)"
    | 24 => "R_PC64 (24)"
    | 25 => "R_GOTOFF64 (25)"
    | 26 => "R_GOTPC32 (26)"
    | 27 => "R_GOT64 (27)"
    | 28 => "R_GOTPCREL64 (28)"
    | 29 => "R_GOTPC64 (29)"
    | 30 => "R_GOTPLT64 (30)"
    | 31 => "R_PLTOFF64 (31)"
    | 32 => "R_SIZE32 (32)"
    | 33 => "R_SIZE64 (33)"
    | 34 => "R_GOTPC32_TLSDESC (34)"
    | 35 => "R_TLSDESC_CALL (35)"
    | 36 => "R_TLSDESC (36)"
    | 37 => "R_IRELATIVE (37)"
    | 41 => "R_GOTPCRELX (41)"
    | 42 => "R_REX_GOTPCRELX (42)"
    | _ => toString ty
  | .macho =>
    match ty with
    | 0 => "RELOC_UNSIGNED (0)"
    | 1 => "RELOC_SIGNED (1)"
    | 2 => "RELOC_BRANCH (2)"
    | 3 => "RELOC_GOT_LOAD (3)"
    | 4 => "RELOC_GOT (4)"
    | 5 => "RELOC_SUBTRACTOR (5)"
    | 6 => "RELOC_SIGNED_1 (6)"
    | 7 => "RELOC_SIGNED_2 (7)"
    | 8 => "RELOC_SIGNED_4 (8)"
    | 9 => "RELOC_TLV (9)"
    | _ => toString ty

/-- The recognized cases of the `switch` in
`AMD64CodeObject::_resolveRelocsForSection`: for Mach-O the cases
`X86_64_RELOC_SIGNED` and `X86_64_RELOC_BRANCH`; for ELF the case
`R_X86_64_PC32`.  Everything else falls to `default` (a `Die` call). -/
def amd64Recognized (ff : ObjFF) (ty : Nat) : Bool :=
  match ff with
  | .macho => ty == X86_64_RELOC_SIGNED || ty == X86_64_RELOC_BRANCH
  | .elf => ty == R_X86_64_PC32

/-- The byte-patch loop of `AMD64CodeObject::_resolveRelocsForSection`:

    for (int i = 0; i < 4; i++) { code[reloc.addr+i] = value & 0xff; value >>= 8; }

`value & 0xff` on a (possibly negative) `int32_t` is `value % 256` with a
non-negative remainder, and the arithmetic shift `value >>= 8` is the
flooring division `value / 256` (Lean's `Int` division for a positive
divisor). -/
def amd64PatchLoop : Nat → Mem → Nat → Int → Mem
  | 0, code, _, _ => code
  | n + 1, code, addr, value =>
      amd64PatchLoop n (code.upd addr (value % 256).toNat) (addr + 1) (value / 256)

/-- The body of the per-relocation loop of
`AMD64CodeObject::_resolveRelocsForSection`, for one relocation record:
skip the record when the symbol is undefined; for a recognized type
patch the four offset bytes one byte at a time; otherwise `Die` with the
relocation-type string and the patch address. -/
def amd64ResolveReloc (ff : ObjFF) (code : Mem) (r : Relocation) : Except DieInfo Mem :=
  if r.symbolDefined then
    let value : Int := toInt32 r.value
    if amd64Recognized ff r.type then
      .ok (amd64PatchLoop 4 code r.addr value)
    else
      .error ⟨amd64RelocTypeToString ff r.type, r.addr⟩
  else
    .ok code

/-- `AMD64CodeObject::_resolveRelocsForSection`: fold the per-record
patch over the section's relocation records (a `Die` terminates the
process, so later records are not processed). -/
def amd64ResolveRelocsForSection (ff : ObjFF) (rs : List Relocation) (code : Mem) :
    Except DieInfo Mem :=
  match rs with
  | [] => .ok code
  | r :: rest =>
      match amd64ResolveReloc ff code r with
      | .ok code1 => amd64ResolveRelocsForSection ff rest code1
      | .error e => .error e

/-- The little-endian byte `i` of the 32-bit encoding of the signed
value `v` (i.e. of `v` reduced modulo `2^32`). -/
def leByte (v : Int) (i : Nat) : Nat := (v % 2 ^ 32).toNat / 256 ^ i % 256

/-! ## ARM64 code objects (`arm64-code-object.inc`)

Only the Mach-O configuration of the ARM64 code object is embedded: the
ELF configuration is rejected at compile time by the `#error` directive
in `AArch64CodeObject::_includeDataSect`, so no buildable ARM64
configuration uses the ELF relocation vocabulary.

The bit-field `union` of `AArch64InsnWord` is modelled arithmetically on
a 32-bit instruction word: for the little-endian field layout, the
`hi21` view places `rd` in bits 0..4, `immhi` in bits 5..23, `op2` in
bits 24..28, `immlo` in bits 29..30 and `op1` in bit 31; the `lo12` view
places `rd` in bits 0..4, `rn` in bits 5..9, `imm12` in bits 10..21 and
`op1` in bits 22..31; the `b26` view places `imm` in bits 0..25 and `op`
in bits 26..31.  (The big-endian variant of the `union` allocates the
same bit positions, listed in the opposite order.)
-/

/-- Read a bit field of `width` bits starting at bit `lo` of a word. -/
def getBits (w lo width : Nat) : Nat := w / 2 ^ lo % 2 ^ width

/-- Assign a bit field of `width` bits starting at bit `lo` of a word,
truncating the assigned value to the field width (C bit-field
assignment semantics). -/
def setBits (w lo width v : Nat) : Nat :=
  w / 2 ^ (lo + width) * 2 ^ (lo + width) + v % 2 ^ width * 2 ^ lo + w % 2 ^ lo

/-- `AArch64InsnWord::patchHi21`: `hi21 = v >> 11`; assign
`immlo = hi21 & 3` (bits 29..30) and `immhi = hi21 >> 2` (bits 5..23). -/
def AArch64InsnWord.patchHi21 (w v : Nat) : Nat :=
  let hi21 := v / 2 ^ 11
  setBits (setBits w 29 2 (hi21 % 4)) 5 19 (hi21 / 4)

/-- `AArch64InsnWord::patchLo12`: assign `imm12 = v & 0xfff`
(bits 10..21). -/
def AArch64InsnWord.patchLo12 (w v : Nat) : Nat :=
  setBits w 10 12 (v % 2 ^ 12)

/-- `AArch64InsnWord::patchB26`: assign `imm = (v & 0xfffffff) >> 2`
(bits 0..25). -/
def AArch64InsnWord.patchB26 (w v : Nat) : Nat :=
  setBits w 0 26 (v % 2 ^ 28 / 4)

/-- The 32-bit read `*(uint32_t *)(code + reloc.addr)` on the
little-endian ARM64/Mach-O host. -/
def readWord32LE (m : Mem) (a : Nat) : Nat :=
  m a + 256 * m (a + 1) + 256 ^ 2 * m (a + 2) + 256 ^ 3 * m (a + 3)

/-- The 32-bit write `*(uint32_t *)(code + reloc.addr) = instr.value()`
on the little-endian ARM64/Mach-O host. -/
def writeWord32LE (m : Mem) (a : Nat) (w : Nat) : Mem :=
  (((m.upd a (w % 256)).upd (a + 1) (w / 256 % 256)).upd
      (a + 2) (w / 256 ^ 2 % 256)).upd (a + 3) (w / 256 ^ 3 % 256)

/-- `AArch64CodeObject::_relocTypeToString` (Mach-O configuration). -/
def arm64RelocTypeToString (ty : Nat) : String :=
  match ty with
  | 0 => "RELOC_UNSIGNED (0)"
  | 1 => "RELOC_SUBTRACTOR (1)"
  | 2 => "RELOC_BRANCH26 (2)"
  | 3 => "RELOC_PAGE21 (3)"
  | 4 => "RELOC_PAGEOFF12 (4)"
  | 5 => "RELOC_GOT_LOAD_PAGE21 (5)"
  | 6 => "RELOC_GOT_LOAD_PAGEOFF12 (6)"
  | 7 => "RELOC_POINTER_TO_GOT (7)"
  | 8 => "RELOC_TLVP_LOAD_PAGE21 (8)"
  | 9 => "RELOC_TLVP_LOAD_PAGEOFF12 (9)"
  | 10 => "RELOC_ADDEND (10)"
  | _ => toString ty

/-- The recognized cases of the `switch` in
`AArch64CodeObject::_resolveRelocsForSection` (Mach-O): `PAGE21`,
`PAGEOFF12` and `BRANCH26`.  Everything else falls to `default`
(a `Die` call). -/
def arm64Recognized (ty : Nat) : Bool :=
  ty == ARM64_RELOC_PAGE21 || ty == ARM64_RELOC_PAGEOFF12 || ty == ARM64_RELOC_BRANCH26

/-- The body of the per-relocation loop of
`AArch64CodeObject::_resolveRelocsForSection` for one relocation record:
skip the record when the symbol is undefined; otherwise load the
instruction word at the patch address, dispatch on the relocation type
to exactly one field-patch routine, and write the patched word back.
The `default` case calls `Die` before any write-back, so no partial
patch is applied. -/
def arm64ResolveReloc (code : Mem) (r : Relocation) : Except DieInfo Mem :=
  if r.symbolDefined then
    let value : Int := toInt32 r.value
    let instr : Nat := readWord32LE code r.addr
    if r.type = ARM64_RELOC_PAGE21 then
      .ok (writeWord32LE code r.addr (AArch64InsnWord.patchHi21 instr (toUInt32arg value)))
    else if r.type = ARM64_RELOC_PAGEOFF12 then
      .ok (writeWord32LE code r.addr (AArch64InsnWord.patchLo12 instr (toUInt32arg value)))
    else if r.type = ARM64_RELOC_BRANCH26 then
      .ok (writeWord32LE code r.addr (AArch64InsnWord.patchB26 instr (toUInt32arg value)))
    else
      .error ⟨arm64RelocTypeToString r.type, r.addr⟩
  else
    .ok code

/-- `AArch64CodeObject::_resolveRelocsForSection`: fold the per-record
patch over the section's relocation records. -/
def arm64ResolveRelocsForSection (rs : List Relocation) (code : Mem) :
    Except DieInfo Mem :=
  match rs with
  | [] => .ok code
  | r :: rest =>
      match arm64ResolveReloc code r with
      | .ok code1 => arm64ResolveRelocsForSection rest code1
      | .error e => .error e

/-! ## Helper lemmas for reading back bit fields after an assignment -/

lemma getBits_setBits_29_2_self (u x : Nat) : getBits (setBits u 29 2 x) 29 2 = x % 4 := by
  simp only [setBits, getBits]; omega

lemma getBits_setBits_5_19_self (u x : Nat) : getBits (setBits u 5 19 x) 5 19 = x % 2 ^ 19 := by
  simp only [setBits, getBits]; omega

lemma getBits_setBits_5_19_at_29_2 (u x : Nat) :
    getBits (setBits u 5 19 x) 29 2 = getBits u 29 2 := by
  simp only [setBits, getBits]; omega

lemma getBits_setBits_5_19_at_0_5 (u x : Nat) :
    getBits (setBits u 5 19 x) 0 5 = getBits u 0 5 := by
  simp only [setBits, getBits]; omega

lemma getBits_setBits_29_2_at_0_5 (u x : Nat) :
    getBits (setBits u 29 2 x) 0 5 = getBits u 0 5 := by
  simp only [setBits, getBits]; omega

lemma getBits_setBits_5_19_at_24_5 (u x : Nat) :
    getBits (setBits u 5 19 x) 24 5 = getBits u 24 5 := by
  simp only [setBits, getBits]; omega

lemma getBits_setBits_29_2_at_24_5 (u x : Nat) :
    getBits (setBits u 29 2 x) 24 5 = getBits u 24 5 := by
  simp only [setBits, getBits]; omega

lemma getBits_setBits_5_19_at_31_1 (u x : Nat) :
    getBits (setBits u 5 19 x) 31 1 = getBits u 31 1 := by
  simp only [setBits, getBits]; omega

lemma getBits_setBits_29_2_at_31_1 (u x : Nat) :
    getBits (setBits u 29 2 x) 31 1 = getBits u 31 1 := by
  simp only [setBits, getBits]; omega

/-! ## Claims about the relocation-patching policies -/

/-- Claim C1: for the AMD64 word-aligned byte-patch policy, a relocation
record of a recognized type (Mach-O `X86_64_RELOC_SIGNED` or
`X86_64_RELOC_BRANCH`, ELF `R_X86_64_PC32`) whose symbol is defined is
patched by writing exactly the 4-byte little-endian encoding of the
normalized signed value at bytes `addr`, `addr+1`, `addr+2`, `addr+3`
of the copied code, one byte at a time, with all other bytes untouched
and with no alignment requirement on `addr`. -/
theorem amd64_resolve_writes_le_bytes (ff : ObjFF) (code : Mem) (r : Relocation)
    (hdef : r.symbolDefined = true) (hrec : amd64Recognized ff r.type = true) :
    ∃ code1, amd64ResolveReloc ff code r = .ok code1
      ∧ (∀ i, i < 4 → code1 (r.addr + i) = leByte r.value i)
      ∧ (∀ x, (∀ i, i < 4 → x ≠ r.addr + i) → code1 x = code x) := by
  refine ⟨amd64PatchLoop 4 code r.addr (toInt32 r.value), ?_, ?_, ?_⟩
  · simp [amd64ResolveReloc, hdef, hrec]
  · intro i hi
    simp only [amd64PatchLoop, Mem.upd, leByte, toInt32]
    interval_cases i <;> (split_ifs <;> omega)
  · intro x hx
    have h0 := hx 0 (by omega)
    have h1 := hx 1 (by omega)
    have h2 := hx 2 (by omega)
    have h3 := hx 3 (by omega)
    simp only [amd64PatchLoop, Mem.upd]
    split_ifs <;> first | rfl | omega

/-- Witness for claim C1: a concrete Mach-O `X86_64_RELOC_SIGNED`
record with value `-2` patched at the (odd, unaligned) address 5. -/
theorem amd64_resolve_writes_le_bytes_witness :
    ∃ code1,
      amd64ResolveReloc .macho (fun _ => 0)
          ⟨true, X86_64_RELOC_SIGNED, 5, -2⟩ = .ok code1
      ∧ (∀ i, i < 4 →
          code1 ((5 : Nat) + i) = leByte (-2) i)
      ∧ (∀ x, (∀ i, i < 4 → x ≠ (5 : Nat) + i) → code1 x = (fun _ => (0 : Nat)) x) :=
  amd64_resolve_writes_le_bytes .macho (fun _ => 0)
    ⟨true, X86_64_RELOC_SIGNED, 5, -2⟩ rfl rfl

/-- Claim C2: for the ARM64 instruction-field patch policy, each
recognized relocation type maps to exactly one field-patch routine
applied to the 32-bit instruction word at the patch address; `patchHi21`
sets `immlo = (v >> 11) & 3` and `immhi = (v >> 11) >> 2`, `patchLo12`
sets `imm12 = v & 0xfff`, `patchB26` sets `imm = (v & 0xfffffff) >> 2`,
and in every case all opcode and register bits of the instruction word
are unchanged. -/
theorem arm64_field_patch_routines (w v : Nat) (hv : v < 2 ^ 32) :
    (getBits (AArch64InsnWord.patchHi21 w v) 29 2 = v / 2 ^ 11 % 4
      ∧ getBits (AArch64InsnWord.patchHi21 w v) 5 19 = v / 2 ^ 11 / 4
      ∧ getBits (AArch64InsnWord.patchHi21 w v) 0 5 = getBits w 0 5
      ∧ getBits (AArch64InsnWord.patchHi21 w v) 24 5 = getBits w 24 5
      ∧ getBits (AArch64InsnWord.patchHi21 w v) 31 1 = getBits w 31 1)
    ∧ (getBits (AArch64InsnWord.patchLo12 w v) 10 12 = v % 2 ^ 12
      ∧ getBits (AArch64InsnWord.patchLo12 w v) 0 5 = getBits w 0 5
      ∧ getBits (AArch64InsnWord.patchLo12 w v) 5 5 = getBits w 5 5
      ∧ getBits (AArch64InsnWord.patchLo12 w v) 22 10 = getBits w 22 10)
    ∧ (getBits (AArch64InsnWord.patchB26 w v) 0 26 = v % 2 ^ 28 / 4
      ∧ getBits (AArch64InsnWord.patchB26 w v) 26 6 = getBits w 26 6)
    ∧ (∀ (code : Mem) (r : Relocation), r.symbolDefined = true →
        (r.type = ARM64_RELOC_PAGE21 →
          arm64ResolveReloc code r =
            .ok (writeWord32LE code r.addr
              (AArch64InsnWord.patchHi21 (readWord32LE code r.addr)
                (toUInt32arg (toInt32 r.value)))))
        ∧ (r.type = ARM64_RELOC_PAGEOFF12 →
          arm64ResolveReloc code r =
            .ok (writeWord32LE code r.addr
              (AArch64InsnWord.patchLo12 (readWord32LE code r.addr)
                (toUInt32arg (toInt32 r.value)))))
        ∧ (r.type = ARM64_RELOC_BRANCH26 →
          arm64ResolveReloc code r =
            .ok (writeWord32LE code r.addr
              (AArch64InsnWord.patchB26 (readWord32LE code r.addr)
                (toUInt32arg (toInt32 r.value)))))) := by
  refine ⟨⟨?_, ?_, ?_, ?_, ?_⟩, ⟨?_, ?_, ?_, ?_⟩, ⟨?_, ?_⟩, ?_⟩
  · rw [AArch64InsnWord.patchHi21, getBits_setBits_5_19_at_29_2, getBits_setBits_29_2_self]
    omega
  · rw [AArch64InsnWord.patchHi21, getBits_setBits_5_19_self]
    omega
  · rw [AArch64InsnWord.patchHi21, getBits_setBits_5_19_at_0_5, getBits_setBits_29_2_at_0_5]
  · rw [AArch64InsnWord.patchHi21, getBits_setBits_5_19_at_24_5, getBits_setBits_29_2_at_24_5]
  · rw [AArch64InsnWord.patchHi21, getBits_setBits_5_19_at_31_1, getBits_setBits_29_2_at_31_1]
  · simp only [AArch64InsnWord.patchLo12, setBits, getBits]; omega
  · simp only [AArch64InsnWord.patchLo12, setBits, getBits]; omega
  · simp only [AArch64InsnWord.patchLo12, setBits, getBits]; omega
  · simp only [AArch64InsnWord.patchLo12, setBits, getBits]; omega
  · simp only [AArch64InsnWord.patchB26, setBits, getBits]; omega
  · simp only [AArch64InsnWord.patchB26, setBits, getBits]; omega
  · intro code r hdef
    refine ⟨?_, ?_, ?_⟩ <;> intro hty <;>
      simp [arm64ResolveReloc, hdef, hty, ARM64_RELOC_PAGE21, ARM64_RELOC_PAGEOFF12,
        ARM64_RELOC_BRANCH26]

/-- Witness for claim C2: the field-patch characterization at the
concrete instruction word `0x92492492` and value `0x01234567`. -/
theorem arm64_field_patch_routines_witness :
    (getBits (AArch64InsnWord.patchHi21 2454267026 19088743) 29 2 = 19088743 / 2 ^ 11 % 4
      ∧ getBits (AArch64InsnWord.patchHi21 2454267026 19088743) 5 19 = 19088743 / 2 ^ 11 / 4
      ∧ getBits (AArch64InsnWord.patchHi21 2454267026 19088743) 0 5 = getBits 2454267026 0 5
      ∧ getBits (AArch64InsnWord.patchHi21 2454267026 19088743) 24 5 = getBits 2454267026 24 5
      ∧ getBits (AArch64InsnWord.patchHi21 2454267026 19088743) 31 1 = getBits 2454267026 31 1)
    ∧ (getBits (AArch64InsnWord.patchLo12 2454267026 19088743) 10 12 = 19088743 % 2 ^ 12
      ∧ getBits (AArch64InsnWord.patchLo12 2454267026 19088743) 0 5 = getBits 2454267026 0 5
      ∧ getBits (AArch64InsnWord.patchLo12 2454267026 19088743) 5 5 = getBits 2454267026 5 5
      ∧ getBits (AArch64InsnWord.patchLo12 2454267026 19088743) 22 10 = getBits 2454267026 22 10)
    ∧ (getBits (AArch64InsnWord.patchB26 2454267026 19088743) 0 26 = 19088743 % 2 ^ 28 / 4
      ∧ getBits (AArch64InsnWord.patchB26 2454267026 19088743) 26 6 = getBits 2454267026 26 6)
    ∧ (∀ (code : Mem) (r : Relocation), r.symbolDefined = true →
        (r.type = ARM64_RELOC_PAGE21 →
          arm64ResolveReloc code r =
            .ok (writeWord32LE code r.addr
              (AArch64InsnWord.patchHi21 (readWord32LE code r.addr)
                (toUInt32arg (toInt32 r.value)))))
        ∧ (r.type = ARM64_RELOC_PAGEOFF12 →
          arm64ResolveReloc code r =
            .ok (writeWord32LE code r.addr
              (AArch64InsnWord.patchLo12 (readWord32LE code r.addr)
                (toUInt32arg (toInt32 r.value)))))
        ∧ (r.type = ARM64_RELOC_BRANCH26 →
          arm64ResolveReloc code r =
            .ok (writeWord32LE code r.addr
              (AArch64InsnWord.patchB26 (readWord32LE code r.addr)
                (toUInt32arg (toInt32 r.value)))))) :=
  arm64_field_patch_routines 2454267026 19088743 (by decide)

/-- Claim C3: a relocation record whose symbol is defined but whose type
has no patch routine for the current target reaches the `default` case
of that target's dispatch `switch`, which calls the fatal `Die` routine
with the relocation-type string and the patch address; the record is
neither silently skipped nor partially patched, and no later record is
processed.  Each policy is covered by its own implication, conditional
only on its own recognition predicate, so the theorem applies to types
that are unrecognized on one target but recognized on the other. -/
theorem unrecognized_reloc_type_dies (ff : ObjFF) (code : Mem) (r : Relocation)
    (hdef : r.symbolDefined = true) :
    (amd64Recognized ff r.type = false →
      amd64ResolveReloc ff code r = .error ⟨amd64RelocTypeToString ff r.type, r.addr⟩
      ∧ ∀ rest, amd64ResolveRelocsForSection ff (r :: rest) code =
          .error ⟨amd64RelocTypeToString ff r.type, r.addr⟩)
    ∧ (arm64Recognized r.type = false →
      arm64ResolveReloc code r = .error ⟨arm64RelocTypeToString r.type, r.addr⟩
      ∧ ∀ rest, arm64ResolveRelocsForSection (r :: rest) code =
          .error ⟨arm64RelocTypeToString r.type, r.addr⟩) := by
  constructor
  · intro hA
    have hA1 : amd64ResolveReloc ff code r =
        .error ⟨amd64RelocTypeToString ff r.type, r.addr⟩ := by
      simp [amd64ResolveReloc, hdef, hA]
    exact ⟨hA1, fun rest => by simp [amd64ResolveRelocsForSection, hA1]⟩
  · intro hB
    simp only [arm64Recognized, Bool.or_eq_false_iff, beq_eq_false_iff_ne, ne_eq] at hB
    have hB1 : arm64ResolveReloc code r =
        .error ⟨arm64RelocTypeToString r.type, r.addr⟩ := by
      simp [arm64ResolveReloc, hdef, hB.1.1, hB.1.2, hB.2]
    exact ⟨hB1, fun rest => by simp [arm64ResolveRelocsForSection, hB1]⟩

/-- Witness for claim C3: the Mach-O relocation type 3
(`X86_64_RELOC_GOT_LOAD` on AMD64, where it has no patch routine and is
fatal, but `ARM64_RELOC_PAGE21` on ARM64, where it is recognized) at
patch address 7: the AMD64 implication applies on its own. -/
theorem unrecognized_reloc_type_dies_witness :
    (amd64Recognized .macho (Relocation.mk true 3 7 0).type = false →
      amd64ResolveReloc .macho (fun _ => 0) ⟨true, 3, 7, 0⟩ =
          .error ⟨amd64RelocTypeToString .macho 3, 7⟩
      ∧ ∀ rest, amd64ResolveRelocsForSection .macho (⟨true, 3, 7, 0⟩ :: rest) (fun _ => 0) =
          .error ⟨amd64RelocTypeToString .macho 3, 7⟩)
    ∧ (arm64Recognized (Relocation.mk true 3 7 0).type = false →
      arm64ResolveReloc (fun _ => 0) ⟨true, 3, 7, 0⟩ =
          .error ⟨arm64RelocTypeToString 3, 7⟩
      ∧ ∀ rest, arm64ResolveRelocsForSection (⟨true, 3, 7, 0⟩ :: rest) (fun _ => 0) =
          .error ⟨arm64RelocTypeToString 3, 7⟩) :=
  unrecognized_reloc_type_dies .macho (fun _ => 0) ⟨true, 3, 7, 0⟩ rfl

/-- Claim C4: a relocation record whose target symbol is undefined is
skipped by the copy-out pass of both targets: the copied bytes are left
exactly as copied and no error is raised; likewise a whole record list
of undefined-symbol relocations leaves the code unchanged. -/
theorem undefined_symbol_reloc_skipped (ff : ObjFF) (code : Mem) (r : Relocation)
    (h : r.symbolDefined = false) :
    amd64ResolveReloc ff code r = .ok code
    ∧ arm64ResolveReloc code r = .ok code
    ∧ ∀ rs : List Relocation, (∀ x ∈ rs, x.symbolDefined = false) →
        amd64ResolveRelocsForSection ff rs code = .ok code
        ∧ arm64ResolveRelocsForSection rs code = .ok code := by
  refine ⟨by simp [amd64ResolveReloc, h], by simp [arm64ResolveReloc, h], ?_⟩
  intro rs
  induction rs with
  | nil =>
    intro _
    exact ⟨rfl, rfl⟩
  | cons y ys ih =>
    intro hall
    have hy : y.symbolDefined = false := hall y (by simp)
    have hys := ih (fun x hx => hall x (by simp [hx]))
    constructor
    · simpa [amd64ResolveRelocsForSection, amd64ResolveReloc, hy] using hys.1
    · simpa [arm64ResolveRelocsForSection, arm64ResolveReloc, hy] using hys.2

/-- Witness for claim C4: a concrete undefined-symbol record is a
no-op for both targets. -/
theorem undefined_symbol_reloc_skipped_witness :
    amd64ResolveReloc .elf (fun _ => 0) ⟨false, 99, 3, 7⟩ = .ok (fun _ => 0)
    ∧ arm64ResolveReloc (fun _ => 0) ⟨false, 99, 3, 7⟩ = .ok (fun _ => 0)
    ∧ ∀ rs : List Relocation, (∀ x ∈ rs, x.symbolDefined = false) →
        amd64ResolveRelocsForSection .elf rs (fun _ => 0) = .ok (fun _ => 0)
        ∧ arm64ResolveRelocsForSection rs (fun _ => 0) = .ok (fun _ => 0) :=
  undefined_symbol_reloc_skipped .elf (fun _ => 0) ⟨false, 99, 3, 7⟩ rfl

/-! ## The code-generation context registers (`context.hpp`)

`Context::mlReg`, `Context::setMLReg`, `Context::saveSMLRegState`,
`Context::restoreSMLRegState` and `Context::basePtr` are defined inline
in `context.hpp`.  The class `CMRegState` they rely on
(`cm-registers.hpp`/`cm-registers.cpp`) and the helpers
`Context::_loadMemReg` / `Context::_storeMemReg` (`context.cpp`) are not
part of the source tree, so those parts are modelled from the spec.
Special registers (`CMRegId`) and IR value handles (`llvm::Value *`) are
both modelled as natural numbers; the null pointer is `Option.none`. -/

/-- Modelled from the spec: `CMRegState` (`cm-registers.hpp` is not in
the source tree) — a mapping from abstract special register to the
current symbolic IR value for the machine-resident registers; `get`
yields null (`none`) for a memory-resident register.  It also carries
the base pointer of the current cluster (`getBasePtr`), null when the
cluster declares none. -/
structure CMRegState where
  vals : Nat → Option Nat
  basePtr : Option Nat

/-- Modelled from the spec: `CMRegState::get` — `value-or-empty`. -/
def CMRegState.get (s : CMRegState) (r : Nat) : Option Nat := s.vals r

/-- Modelled from the spec: `CMRegState::set`. -/
def CMRegState.set (s : CMRegState) (r : Nat) (v : Nat) : CMRegState :=
  { s with vals := fun x => if x = r then some v else s.vals x }

/-- Modelled from the spec: `CMRegState::getBasePtr`. -/
def CMRegState.getBasePtr (s : CMRegState) : Option Nat := s.basePtr

/-- Modelled from the spec: `CMRegState::copyFrom` (`cm-registers.cpp`
is not in the source tree) — after `copyFrom` the destination is
byte-for-byte equal to the source snapshot's resident-register values. -/
def CMRegState.copyFrom (dst src : CMRegState) : CMRegState :=
  { dst with vals := src.vals, basePtr := src.basePtr }

/-- The state of a `Context` (`context.hpp`) that the special-register
accessors touch: the symbolic register state `_regState`, and the fixed
memory slots backing the memory-resident special registers. -/
structure Context where
  regState : CMRegState
  memRegs : Nat → Nat

/-- Modelled from the spec: `Context::_loadMemReg` (`context.cpp` is not
in the source tree) — load a memory-resident special register from its
fixed memory slot. -/
def Context.loadMemReg (c : Context) (r : Nat) : Nat := c.memRegs r

/-- Modelled from the spec: `Context::_storeMemReg` (`context.cpp` is
not in the source tree) — store a memory-resident special register to
its fixed memory slot. -/
def Context.storeMemReg (c : Context) (r : Nat) (v : Nat) : Context :=
  { c with memRegs := fun x => if x = r then v else c.memRegs x }

/-- `Context::mlReg`: get the value of a special register; when
`_regState.get` yields null the register is memory-resident and the
value is loaded from memory. -/
def Context.mlReg (c : Context) (r : Nat) : Nat :=
  match c.regState.get r with
  | none => c.loadMemReg r
  | some reg => reg

/-- `Context::setMLReg`: assign a value to a special register; when
`_regState.get` yields null the register is memory-resident and the
value is stored to memory. -/
def Context.setMLReg (c : Context) (r : Nat) (v : Nat) : Context :=
  match c.regState.get r with
  | none => c.storeMemReg r v
  | some _ => { c with regState := c.regState.set r v }

/-- `Context::saveSMLRegState`: `cache.copyFrom (this->_regState)`. -/
def Context.saveSMLRegState (c : Context) (cache : CMRegState) : CMRegState :=
  cache.copyFrom c.regState

/-- `Context::restoreSMLRegState`: `this->_regState.copyFrom (cache)`. -/
def Context.restoreSMLRegState (c : Context) (cache : CMRegState) : Context :=
  { c with regState := c.regState.copyFrom cache }

/-- `Context::basePtr`: assert that the current cluster has a base
pointer and return it.  The failing `assert` is modelled as an
`Except.error`. -/
def Context.basePtr (c : Context) : Except String Nat :=
  match c.regState.getBasePtr with
  | none => .error "no base pointer for current cluster"
  | some v => .ok v

/-- Claim C5: for every special register `r` and value `v`,
`setMLReg r v` immediately followed by `mlReg r` returns `v` whether `r`
is machine-resident or memory-resident, so callers never branch on which
case applies; in the machine-resident case no memory slot is loaded or
stored (the memory is unchanged and the read value does not depend on
it); in the memory-resident case the value round-trips through the fixed
memory slot of `r` and the symbolic map is untouched. -/
theorem setMLReg_mlReg_roundtrip (c : Context) (r v : Nat) :
    (c.setMLReg r v).mlReg r = v
    ∧ (∀ w, c.regState.get r = some w →
        (c.setMLReg r v).memRegs = c.memRegs
        ∧ ∀ mem : Nat → Nat, (Context.mk (c.setMLReg r v).regState mem).mlReg r = v)
    ∧ (c.regState.get r = none →
        (c.setMLReg r v).memRegs r = v
        ∧ (c.setMLReg r v).regState = c.regState
        ∧ (c.setMLReg r v).mlReg r = (c.setMLReg r v).loadMemReg r) := by
  rcases hres : c.regState.vals r with _ | w
  · refine ⟨?_, ?_, ?_⟩
    · simp [Context.setMLReg, Context.mlReg, Context.storeMemReg, Context.loadMemReg,
        CMRegState.get, hres]
    · intro w hw
      simp [CMRegState.get, hres] at hw
    · intro _
      refine ⟨?_, ?_, ?_⟩
      · simp [Context.setMLReg, Context.storeMemReg, CMRegState.get, hres]
      · simp [Context.setMLReg, Context.storeMemReg, CMRegState.get, hres]
      · simp [Context.setMLReg, Context.mlReg, Context.storeMemReg, Context.loadMemReg,
          CMRegState.get, hres]
  · refine ⟨?_, ?_, ?_⟩
    · simp [Context.setMLReg, Context.mlReg, CMRegState.get, CMRegState.set, hres]
    · intro w1 _
      constructor
      · simp [Context.setMLReg, CMRegState.get, hres]
      · intro mem
        simp [Context.setMLReg, Context.mlReg, CMRegState.get, CMRegState.set, hres]
    · intro hnone
      simp [CMRegState.get, hres] at hnone

/-- Witness for claim C5: a concrete context in which register 0 is
machine-resident (bound to the handle 42) and register 1 is
memory-resident, exercised at register 1. -/
theorem setMLReg_mlReg_roundtrip_witness :
    ((Context.mk ⟨fun r => if r = 0 then some 42 else none, none⟩ fun _ => 0).setMLReg 1 7).mlReg
        1 = 7
    ∧ (∀ w,
        (Context.mk ⟨fun r => if r = 0 then some 42 else none, none⟩
              fun _ => 0).regState.get 1 = some w →
        ((Context.mk ⟨fun r => if r = 0 then some 42 else none, none⟩
              fun _ => 0).setMLReg 1 7).memRegs =
            (Context.mk ⟨fun r => if r = 0 then some 42 else none, none⟩
              fun _ => 0).memRegs
        ∧ ∀ mem : Nat → Nat,
            (Context.mk
                ((Context.mk ⟨fun r => if r = 0 then some 42 else none, none⟩
                    fun _ => 0).setMLReg 1 7).regState mem).mlReg 1 = 7)
    ∧ ((Context.mk ⟨fun r => if r = 0 then some 42 else none, none⟩
          fun _ => 0).regState.get 1 = none →
        ((Context.mk ⟨fun r => if r = 0 then some 42 else none, none⟩
            fun _ => 0).setMLReg 1 7).memRegs 1 = 7
        ∧ ((Context.mk ⟨fun r => if r = 0 then some 42 else none, none⟩
            fun _ => 0).setMLReg 1 7).regState =
            (Context.mk ⟨fun r => if r = 0 then some 42 else none, none⟩
              fun _ => 0).regState
        ∧ ((Context.mk ⟨fun r => if r = 0 then some 42 else none, none⟩
            fun _ => 0).setMLReg 1 7).mlReg 1 =
            ((Context.mk ⟨fun r => if r = 0 then some 42 else none, none⟩
              fun _ => 0).setMLReg 1 7).loadMemReg 1) :=
  setMLReg_mlReg_roundtrip
    (Context.mk ⟨fun r => if r = 0 then some 42 else none, none⟩ fun _ => 0) 1 7

/-- Claim C6: saving the register state to a snapshot, restoring from
it, and saving again yields a second snapshot equal to the first on all
machine-resident registers; after any `copyFrom` the destination's
resident-register values equal the source's; and restoring a snapshot
never touches the memory-resident registers (they are always live in
memory and are not part of a snapshot). -/
theorem saveSMLRegState_roundtrip (c : Context) (c1 c2 : CMRegState) :
    (((c.restoreSMLRegState (c.saveSMLRegState c1)).saveSMLRegState c2).vals
        = (c.saveSMLRegState c1).vals)
    ∧ (∀ dst src : CMRegState, (dst.copyFrom src).vals = src.vals)
    ∧ (∀ cache : CMRegState, (c.restoreSMLRegState cache).memRegs = c.memRegs) := by
  refine ⟨rfl, fun dst src => rfl, fun cache => rfl⟩

/-- Claim C7: requesting the base pointer for a cluster that declares
none fails deterministically with the fatal assertion (its message), and
a successful request only ever returns the actual base-pointer value of
the current register state, never a stale, null or zero stand-in. -/
theorem basePtr_asserts_when_absent (c : Context) :
    (c.regState.getBasePtr = none →
        c.basePtr = .error "no base pointer for current cluster")
    ∧ (∀ v, c.basePtr = .ok v → c.regState.getBasePtr = some v) := by
  constructor
  · intro h
    simp [Context.basePtr, h]
  · intro v h
    rcases hb : c.regState.basePtr with _ | w
    · simp [Context.basePtr, CMRegState.getBasePtr, hb] at h
    · simp [Context.basePtr, CMRegState.getBasePtr, hb] at h
      simp [CMRegState.getBasePtr, hb, h]

/-- Witness for claim C7: a concrete register state with no base
pointer, and one with base pointer 3. -/
theorem basePtr_asserts_when_absent_witness :
    ((Context.mk ⟨fun _ => none, none⟩ fun _ => 0).regState.getBasePtr = none →
        (Context.mk ⟨fun _ => none, none⟩ fun _ => 0).basePtr =
          .error "no base pointer for current cluster")
    ∧ (∀ v, (Context.mk ⟨fun _ => none, none⟩ fun _ => 0).basePtr = .ok v →
        (Context.mk ⟨fun _ => none, none⟩ fun _ => 0).regState.getBasePtr = some v) :=
  basePtr_asserts_when_absent (Context.mk ⟨fun _ => none, none⟩ fun _ => 0)

/-! ## Record allocation (`Context::allocRecord`) -/

/-- The heap state that `Context::allocRecord` manipulates: the
word-addressed ML heap and the allocation-pointer register (a word
index into the heap). -/
structure AllocState where
  heap : Nat → Nat
  allocPtr : Nat

/-- Store a list of words at consecutive heap addresses starting at `a`. -/
def storeFields (h : Nat → Nat) (a : Nat) : List Nat → (Nat → Nat)
  | [] => h
  | v :: vs => storeFields (fun x => if x = a then v else h x) (a + 1) vs

/-- Modelled from the spec: `Context::allocRecord` (`context.cpp` is not
in the source tree) — emit the sequence that stores the descriptor word
and each argument contiguously at the allocation pointer, bump the
allocation pointer by the word-rounded size of the record (one word per
field, so `1 + args.length` words), and return a pointer to the first
argument slot (one word past the descriptor). -/
def Context.allocRecord (s : AllocState) (desc : Nat) (args : List Nat) :
    AllocState × Nat :=
  let p := s.allocPtr
  ({ heap := storeFields s.heap p (desc :: args),
     allocPtr := p + 1 + args.length },
   p + 1)

lemma storeFields_lt (l : List Nat) :
    ∀ (h : Nat → Nat) (a x : Nat), x < a → storeFields h a l x = h x := by
  induction l with
  | nil => intro h a x _; rfl
  | cons v vs ih =>
    intro h a x hx
    rw [storeFields, ih _ _ _ (by omega)]
    simp [Nat.ne_of_lt hx]

lemma storeFields_get (l : List Nat) :
    ∀ (h : Nat → Nat) (a i : Nat) (hi : i < l.length),
      storeFields h a l (a + i) = l.get ⟨i, hi⟩ := by
  induction l with
  | nil => intro h a i hi; exact absurd hi (by simp)
  | cons v vs ih =>
    intro h a i hi
    match i with
    | 0 =>
      rw [storeFields, storeFields_lt vs _ _ _ (by omega)]
      simp
    | j + 1 =>
      rw [storeFields]
      have : a + (j + 1) = (a + 1) + j := by omega
      rw [this, ih _ _ _ (by simpa using hi)]
      rfl

/-- Claim C8: `allocRecord desc args` stores the descriptor word and
then each argument contiguously starting at the current allocation
pointer, advances the allocation pointer by the word-rounded size of
the record (`1 + args.length` words), and returns a pointer to the
first argument slot: the fields at offsets `0` and `1` of the returned
pointer are the first and second arguments, every field `i` is
`args[i]`, and the word at offset `-1` is the descriptor. -/
theorem allocRecord_layout (s : AllocState) (desc a b : Nat) (rest : List Nat) :
    (Context.allocRecord s desc (a :: b :: rest)).2 = s.allocPtr + 1
    ∧ (Context.allocRecord s desc (a :: b :: rest)).1.heap
        ((Context.allocRecord s desc (a :: b :: rest)).2 + 0) = a
    ∧ (Context.allocRecord s desc (a :: b :: rest)).1.heap
        ((Context.allocRecord s desc (a :: b :: rest)).2 + 1) = b
    ∧ (Context.allocRecord s desc (a :: b :: rest)).1.heap
        ((Context.allocRecord s desc (a :: b :: rest)).2 - 1) = desc
    ∧ (Context.allocRecord s desc (a :: b :: rest)).1.allocPtr
        = s.allocPtr + (1 + (a :: b :: rest).length)
    ∧ (∀ i (hi : i < (a :: b :: rest).length),
        (Context.allocRecord s desc (a :: b :: rest)).1.heap
            ((Context.allocRecord s desc (a :: b :: rest)).2 + i)
          = (a :: b :: rest).get ⟨i, hi⟩) := by
  have hfield : ∀ i (hi : i < (a :: b :: rest).length),
      (Context.allocRecord s desc (a :: b :: rest)).1.heap
          ((Context.allocRecord s desc (a :: b :: rest)).2 + i)
        = (a :: b :: rest).get ⟨i, hi⟩ := by
    intro i hi
    show storeFields s.heap s.allocPtr (desc :: a :: b :: rest) (s.allocPtr + 1 + i) = _
    have h1 : s.allocPtr + 1 + i = s.allocPtr + (i + 1) := by omega
    rw [h1, storeFields_get (desc :: a :: b :: rest) s.heap s.allocPtr (i + 1)
      (by simp only [List.length_cons] at hi ⊢; omega)]
    simp
  refine ⟨rfl, hfield 0 (by simp), hfield 1 (by simp), ?_,
    by simp only [Context.allocRecord, List.length_cons]; omega, hfield⟩
  show storeFields s.heap s.allocPtr (desc :: a :: b :: rest) (s.allocPtr + 1 - 1) = desc
  have h1 : s.allocPtr + 1 - 1 = s.allocPtr + 0 := by omega
  rw [h1, storeFields_get (desc :: a :: b :: rest) s.heap s.allocPtr 0 (by simp)]
  rfl

/-- Witness for claim C8: allocating a two-field record with descriptor
17 and fields 5 and 9 on a zeroed heap with allocation pointer 100. -/
theorem allocRecord_layout_witness :
    (Context.allocRecord ⟨fun _ => 0, 100⟩ 17 [5, 9]).2 = 100 + 1
    ∧ (Context.allocRecord ⟨fun _ => 0, 100⟩ 17 [5, 9]).1.heap
        ((Context.allocRecord ⟨fun _ => 0, 100⟩ 17 [5, 9]).2 + 0) = 5
    ∧ (Context.allocRecord ⟨fun _ => 0, 100⟩ 17 [5, 9]).1.heap
        ((Context.allocRecord ⟨fun _ => 0, 100⟩ 17 [5, 9]).2 + 1) = 9
    ∧ (Context.allocRecord ⟨fun _ => 0, 100⟩ 17 [5, 9]).1.heap
        ((Context.allocRecord ⟨fun _ => 0, 100⟩ 17 [5, 9]).2 - 1) = 17
    ∧ (Context.allocRecord ⟨fun _ => 0, 100⟩ 17 [5, 9]).1.allocPtr = 100 + (1 + [5, 9].length)
    ∧ (∀ i (hi : i < [5, 9].length),
        (Context.allocRecord ⟨fun _ => 0, 100⟩ 17 [5, 9]).1.heap
            ((Context.allocRecord ⟨fun _ => 0, 100⟩ 17 [5, 9]).2 + i)
          = [5, 9].get ⟨i, hi⟩) :=
  allocRecord_layout ⟨fun _ => 0, 100⟩ 17 5 9 []

/-! ## The machine-code emission pipeline (`mc-gen.cpp`) -/

/-- The optimization passes that `MCGen::beginModule` can add to the
function pass manager (each constructor names the `llvm::create...Pass`
factory used in the source). -/
inductive Pass where
  | lowerExpectIntrinsic
  | cfgSimplification
  | instructionCombining
  | reassociate
  | constantPropagation
  | earlyCSE
  | gvn
  | deadCodeElimination
deriving DecidableEq

/-- The optimization pipeline that `MCGen::beginModule` installs in the
function pass manager, in source order:
`-lower-expect`, `-simplifycfg`, `-instcombine`, `-reassociate`,
`-constprop`, `-early-cse`, `-gvn`, `-dce`, `-simplifycfg`,
`-instcombine`, `-simplifycfg`.  (The analysis-only target-transform
wrapper pass is configuration, not an optimization, and the `-sccp`
line is commented out in the source.) -/
def MCGen.beginModulePasses : List Pass :=
  [Pass.lowerExpectIntrinsic, Pass.cfgSimplification, Pass.instructionCombining,
   Pass.reassociate, Pass.constantPropagation, Pass.earlyCSE, Pass.gvn,
   Pass.deadCodeElimination, Pass.cfgSimplification, Pass.instructionCombining,
   Pass.cfgSimplification]

/-- `this->_passMngr->run (*it)`: run every pipeline pass, in order,
over one function.  The effect of an individual pass on a function is
abstracted as a parameter `run`. -/
def runFunctionPassManager {F : Type} (run : Pass → F → F) (f : F) : F :=
  MCGen.beginModulePasses.foldl (fun g p => run p g) f

/-- `MCGen::optimize`: run the function pass manager over every
function of the module (the module is its list of functions). -/
def MCGen.optimize {F : Type} (run : Pass → F → F) : List F → List F
  | [] => []
  | f :: fs => runFunctionPassManager run f :: MCGen.optimize run fs

/-- Counterexample to claim C9 as stated: the pipeline built by
`MCGen::beginModule` does not run each of the listed passes once per
function — CFG simplification appears three times (and instruction
combining twice). -/
theorem beginModule_pipeline_not_once_each :
    MCGen.beginModulePasses.count Pass.cfgSimplification = 3
    ∧ MCGen.beginModulePasses.count Pass.cfgSimplification ≠ 1
    ∧ MCGen.beginModulePasses.count Pass.instructionCombining = 2 := by
  decide

/-- Claim C9 (amended): `beginModule` builds a function-level pipeline
consisting of lower-expect, CFG simplification, instruction combining,
reassociation, constant propagation, early redundancy elimination,
global value numbering and dead-code elimination in the fixed source
order, with CFG simplification run three times and instruction
combining twice per function (the other passes once); and `optimize`
applies that pipeline once to every function of the module. -/
theorem beginModule_pipeline_and_optimize :
    MCGen.beginModulePasses =
      [Pass.lowerExpectIntrinsic, Pass.cfgSimplification, Pass.instructionCombining,
       Pass.reassociate, Pass.constantPropagation, Pass.earlyCSE, Pass.gvn,
       Pass.deadCodeElimination, Pass.cfgSimplification, Pass.instructionCombining,
       Pass.cfgSimplification]
    ∧ MCGen.beginModulePasses.count Pass.lowerExpectIntrinsic = 1
    ∧ MCGen.beginModulePasses.count Pass.cfgSimplification = 3
    ∧ MCGen.beginModulePasses.count Pass.instructionCombining = 2
    ∧ MCGen.beginModulePasses.count Pass.reassociate = 1
    ∧ MCGen.beginModulePasses.count Pass.constantPropagation = 1
    ∧ MCGen.beginModulePasses.count Pass.earlyCSE = 1
    ∧ MCGen.beginModulePasses.count Pass.gvn = 1
    ∧ MCGen.beginModulePasses.count Pass.deadCodeElimination = 1
    ∧ ∀ (F : Type) (run : Pass → F → F) (module : List F),
        MCGen.optimize run module = module.map (runFunctionPassManager run) := by
  refine ⟨rfl, by decide, by decide, by decide, by decide, by decide, by decide,
    by decide, by decide, ?_⟩
  intro F run module
  induction module with
  | nil => rfl
  | cons f fs ih => simp [MCGen.optimize, ih]

/-! ## In-memory object-file emission (`MCGen::compile`) -/

/-- Modelled from the spec: `ObjfilePWriteStream`
(`objfile-pwrite-stream.hpp`/`.cpp` are not in the source tree) — the
in-memory, seekable, writable byte buffer backing object-file emission;
`clear` empties it, and a successful run of the emission pass appends
the bytes of the emitted object image. -/
abbrev ObjfilePWriteStream : Type := List Nat

/-- Modelled from the spec: `ObjfilePWriteStream::clear` — empty the
in-memory byte stream. -/
def ObjfilePWriteStream.clear (_ : ObjfilePWriteStream) : ObjfilePWriteStream :=
  ([] : List Nat)

/-- Modelled from the spec: writing an emitted object image into the
in-memory byte stream appends its bytes. -/
def ObjfilePWriteStream.writeBytes (s : ObjfilePWriteStream) (bytes : List Nat) :
    ObjfilePWriteStream :=
  s ++ bytes

/-- `MCGen::compile`: clear the context's object-file backing stream
(`codeBuf->objectFileOS().clear()`), then run the `addPassesToEmitMC`
pass pipeline over the module, which writes the bytes of the single
emitted object image (`objImage`) into the stream. -/
def MCGen.compile (st : ObjfilePWriteStream) (objImage : List Nat) : ObjfilePWriteStream :=
  (st.clear).writeBytes objImage

/-- Claim C10: `MCGen::compile` first clears the context's in-memory
object-file byte stream, so after it returns the stream holds exactly
the bytes of the object image produced by that call, independent of any
earlier `compile` on the same context. -/
theorem compile_clears_then_holds_exactly_image (st : ObjfilePWriteStream)
    (img1 img2 : List Nat) :
    MCGen.compile st img1 = img1
    ∧ MCGen.compile (MCGen.compile st img1) img2 = img2 := by
  constructor <;>
    simp [MCGen.compile, ObjfilePWriteStream.clear, ObjfilePWriteStream.writeBytes]
